import Mathlib

/-!
Verification of the lead extraction-and-scoring pipeline of `lead_app.py`.

The Python program queries OpenStreetMap for newly opened businesses, turns
each raw point of interest (a tag mapping) into a normalized lead record,
attaches an income tier from a ZIP reference table, scores the lead, filters
leads that were already called, sorts descending by score and truncates to
the first 50, persisting every produced lead with an insert-if-absent policy.

This file gives a shallow embedding of that pipeline: Python dicts become
association lists, `datetime.fromisoformat` becomes an explicit parser for
the `isoformat()`-emitted grammar (calendar date, optional separator and
time of day) yielding microseconds since the epoch, `utcnow` is a
`now : Int` parameter (microseconds since the epoch), and pandas
`sort_values(ascending=False)` is modelled as its `nargsort` double
reversal around a stable ascending sort; numpy's default introsort only
matches that tie order below its insertion-sort threshold, so the sort
model is relied on solely through tie-order-invariant facts (membership
and permutation).
-/

/-- A raw point of interest: `el.id` stringified plus the free-form tag map.
Python dicts have unique keys; an association list with first-match lookup
is a faithful superset. -/
structure RawPOI where
  id : String
  tags : List (String × String)
deriving DecidableEq, Repr

/-- A row of the normalized-lead dict built in `main` (lines 209-220).
The Python key `email/social` is rendered `email_social`. -/
structure LeadRow where
  osm_id : String
  name : String
  industry : String
  address : String
  phone : String
  email_social : String
  newness_days : Int
  income_tier : String
  demo_link : String
  lead_score : Int
deriving DecidableEq, Repr

/-- A row of the income reference CSV after pandas parsing: the `zip` column
as a string and the `median_income` column as a number. -/
structure IncRow where
  zip : String
  median_income : Int
deriving DecidableEq, Repr

/-- `tags.get(k)`: first value bound to `k` in the tag map. -/
def getTag (tags : List (String × String)) (k : String) : Option String :=
  List.lookup k tags

/-- Python `a or b` on optional strings: `b` whenever `a` is `None` or the
empty string (falsy), else `a`. -/
def orT (a b : Option String) : Option String :=
  match a with
  | some s => if s = "" then b else some s
  | none => b

/-- `str.lower()` then replace non-alphanumerics by `-` and `strip('-')`
(line 30 `slugify`); lowering is applied per character. -/
def slugify (value : String) : String :=
  let cs := value.toList.map (fun c => if c.toLower.isAlphanum then c.toLower else '-')
  String.mk (((cs.dropWhile (fun c => c = '-')).reverse.dropWhile (fun c => c = '-')).reverse)

/-- `VERTICAL_TAGS` (lines 20-26), an ordered mapping as in the Python dict. -/
def VERTICAL_TAGS : List (String × List (String × String)) :=
  [("Plumbing", [("craft", "plumber")]),
   ("Cafe", [("amenity", "cafe")]),
   ("Pet Grooming", [("shop", "pet")]),
   ("Medical Clinic", [("amenity", "clinic")]),
   ("Specialty Retail", [("shop", "electronics")])]

/-- Industry classification (lines 197-201): first vertical whose every
(key, value) pair matches the tags, else `Other`. -/
def classifyIndustry (tags : List (String × String)) : String :=
  match VERTICAL_TAGS.find? (fun kv => kv.2.all (fun tv => getTag tags tv.1 == some tv.2)) with
  | some kv => kv.1
  | none => "Other"

/-- Address assembly (lines 205-207): `addr:full` if truthy, else the
space-join of the present, non-empty structured parts. -/
def assembleAddress (tags : List (String × String)) : String :=
  let joined := String.intercalate " "
    (([getTag tags "addr:housenumber", getTag tags "addr:street",
       getTag tags "addr:city", getTag tags "addr:state"].filterMap id).filter
      (fun s => s != ""))
  match getTag tags "addr:full" with
  | some s => if s = "" then joined else s
  | none => joined

/-- `email or social or ''` where `email` and `social` are the falsy-chains
of lines 194-195. -/
def emailOrSocial (tags : List (String × String)) : String :=
  let email := orT (getTag tags "email") (getTag tags "contact:email")
  let social := orT (getTag tags "contact:facebook") (getTag tags "contact:instagram")
  (orT email social).getD ""

/-- Gregorian leap-year rule, as used by Python `datetime`. -/
def isLeapYear (y : Int) : Bool :=
  y % 4 == 0 && (y % 100 != 0 || y % 400 == 0)

/-- Number of days in month `m` of year `y`. -/
def daysInMonth (y m : Int) : Int :=
  if m = 2 then (if isLeapYear y then 29 else 28)
  else if m = 4 ∨ m = 6 ∨ m = 9 ∨ m = 11 then 30
  else 31

/-- Civil date to epoch day count (days since 1970-01-01), the standard
days-from-civil algorithm; differences of these counts are exactly the
`timedelta.days` values Python computes between midnight datetimes. -/
def toEpochDay (y m d : Int) : Int :=
  let y2 := if m ≤ 2 then y - 1 else y
  let era : Int := Int.fdiv y2 400
  let yoe := y2 - era * 400
  let mp := (m + 9) % 12
  let doy := (153 * mp + 2) / 5 + d - 1
  let doe := yoe * 365 + yoe / 4 - yoe / 100 + doy
  era * 146097 + doe - 719468

/-- Numeric value of a digit character. -/
def digitVal (c : Char) : Int :=
  (c.toNat : Int) - 48

/-- The literal reading of claim C2's condition (4): the chosen tag parses
as an ISO-8601 calendar date, i.e. exactly `YYYY-MM-DD` with a valid year
(1-9999), month and day; yields the epoch day of that date. Used only to
state the claim as written; the parser faithful to the source is
`fromisoformatNaive` below. -/
def parseIsoCalendarDate (s : String) : Option Int :=
  match s.toList with
  | [y1, y2, y3, y4, h1, m1, m2, h2, d1, d2] =>
    if (y1.isDigit && y2.isDigit && y3.isDigit && y4.isDigit &&
        h1 == '-' && m1.isDigit && m2.isDigit && h2 == '-' && d1.isDigit && d2.isDigit) then
      let y := 1000 * digitVal y1 + 100 * digitVal y2 + 10 * digitVal y3 + digitVal y4
      let m := 10 * digitVal m1 + digitVal m2
      let d := 10 * digitVal d1 + digitVal d2
      if 1 ≤ y ∧ 1 ≤ m ∧ m ≤ 12 ∧ 1 ≤ d ∧ d ≤ daysInMonth y m then
        some (toEpochDay y m d)
      else none
    else none
  | _ => none

/-- Microseconds per day, the resolution of Python `datetime` arithmetic. -/
def usPerDay : Int := 86400000000

/-- Time-of-day part of an ISO string, as `datetime.fromisoformat` accepts
it in every CPython version (the `isoformat()`-emitted forms): `HH`,
`HH:MM`, `HH:MM:SS`, `HH:MM:SS.fff` or `HH:MM:SS.ffffff`; yields the
microseconds since midnight. -/
def parseTimeUs (cs : List Char) : Option Int :=
  match cs with
  | [a1, a2] =>
    if a1.isDigit && a2.isDigit then
      let hh := 10 * digitVal a1 + digitVal a2
      if hh ≤ 23 then some (hh * 3600000000) else none
    else none
  | [a1, a2, c1, b1, b2] =>
    if a1.isDigit && a2.isDigit && c1 == ':' && b1.isDigit && b2.isDigit then
      let hh := 10 * digitVal a1 + digitVal a2
      let mm := 10 * digitVal b1 + digitVal b2
      if hh ≤ 23 ∧ mm ≤ 59 then some ((hh * 60 + mm) * 60000000) else none
    else none
  | [a1, a2, c1, b1, b2, c2, e1, e2] =>
    if a1.isDigit && a2.isDigit && c1 == ':' && b1.isDigit && b2.isDigit &&
        c2 == ':' && e1.isDigit && e2.isDigit then
      let hh := 10 * digitVal a1 + digitVal a2
      let mm := 10 * digitVal b1 + digitVal b2
      let ss := 10 * digitVal e1 + digitVal e2
      if hh ≤ 23 ∧ mm ≤ 59 ∧ ss ≤ 59 then
        some (((hh * 60 + mm) * 60 + ss) * 1000000)
      else none
    else none
  | [a1, a2, c1, b1, b2, c2, e1, e2, dot, f1, f2, f3] =>
    if a1.isDigit && a2.isDigit && c1 == ':' && b1.isDigit && b2.isDigit &&
        c2 == ':' && e1.isDigit && e2.isDigit && dot == '.' &&
        f1.isDigit && f2.isDigit && f3.isDigit then
      let hh := 10 * digitVal a1 + digitVal a2
      let mm := 10 * digitVal b1 + digitVal b2
      let ss := 10 * digitVal e1 + digitVal e2
      let ms := 100 * digitVal f1 + 10 * digitVal f2 + digitVal f3
      if hh ≤ 23 ∧ mm ≤ 59 ∧ ss ≤ 59 then
        some (((hh * 60 + mm) * 60 + ss) * 1000000 + ms * 1000)
      else none
    else none
  | [a1, a2, c1, b1, b2, c2, e1, e2, dot, f1, f2, f3, f4, f5, f6] =>
    if a1.isDigit && a2.isDigit && c1 == ':' && b1.isDigit && b2.isDigit &&
        c2 == ':' && e1.isDigit && e2.isDigit && dot == '.' &&
        f1.isDigit && f2.isDigit && f3.isDigit && f4.isDigit && f5.isDigit && f6.isDigit then
      let hh := 10 * digitVal a1 + digitVal a2
      let mm := 10 * digitVal b1 + digitVal b2
      let ss := 10 * digitVal e1 + digitVal e2
      let us := 100000 * digitVal f1 + 10000 * digitVal f2 + 1000 * digitVal f3
        + 100 * digitVal f4 + 10 * digitVal f5 + digitVal f6
      if hh ≤ 23 ∧ mm ≤ 59 ∧ ss ≤ 59 then
        some (((hh * 60 + mm) * 60 + ss) * 1000000 + us)
      else none
    else none
  | _ => none

/-- `datetime.fromisoformat` as lines 179-180 consume it: a `YYYY-MM-DD`
calendar date, optionally followed by one arbitrary separator character
and a time of day, yields the parsed naive datetime as microseconds since
the epoch (the grammar accepted by every CPython version: the inverse of
`isoformat()`, with any single character allowed as separator). Returns
`none` both when parsing raises and when the string carries a UTC offset
or other trailing content: an offset-aware result makes the subtraction
`datetime.utcnow() - dt` at line 180 raise `TypeError`, and the
surrounding `try/except Exception` treats the two cases identically. -/
def fromisoformatNaive (s : String) : Option Int :=
  match s.toList with
  | y1 :: y2 :: y3 :: y4 :: h1 :: m1 :: m2 :: h2 :: d1 :: d2 :: rest =>
    if (y1.isDigit && y2.isDigit && y3.isDigit && y4.isDigit &&
        h1 == '-' && m1.isDigit && m2.isDigit && h2 == '-' && d1.isDigit && d2.isDigit) then
      let y := 1000 * digitVal y1 + 100 * digitVal y2 + 10 * digitVal y3 + digitVal y4
      let m := 10 * digitVal m1 + digitVal m2
      let d := 10 * digitVal d1 + digitVal d2
      if 1 ≤ y ∧ 1 ≤ m ∧ m ≤ 12 ∧ 1 ≤ d ∧ d ≤ daysInMonth y m then
        match rest with
        | [] => some (toEpochDay y m d * usPerDay)
        | _ :: timeChars =>
          match parseTimeUs timeChars with
          | some t => some (toEpochDay y m d * usPerDay + t)
          | none => none
      else none
    else none
  | _ => none

/-- `compute_lead_score` (lines 127-137): freshness base floored at 0, plus
10 for a truthy phone, 5 for a truthy email/social, 10 for High income tier
and 5 for Medium. -/
def compute_lead_score (row : LeadRow) : Int :=
  max 0 (30 - row.newness_days)
  + (if row.phone = "" then 0 else 10)
  + (if row.email_social = "" then 0 else 5)
  + (if row.income_tier = "High" then 10 else if row.income_tier = "Medium" then 5 else 0)

/-- Tag Extractor: lines 171-182 of the per-element loop plus the pure
tag-derived fields of the row built at lines 194-219. Rejects (returns
`none`) when a `website` tag exists, when the phone falsy-chain is empty,
when the date falsy-chain is empty, or when line 180 raises (unparseable
or offset-aware date string). `newness_days` is the `timedelta.days` of
`utcnow() - dt`, i.e. the floored day difference of the microsecond
counts. `income_tier` is a placeholder here; the pipeline overwrites it. -/
def extract (now : Int) (poi : RawPOI) : Option LeadRow :=
  if (getTag poi.tags "website").isSome then none else
  let phone := (orT (getTag poi.tags "phone") (getTag poi.tags "contact:phone")).getD ""
  if phone = "" then none else
  let opening := (orT (getTag poi.tags "opening_date") (getTag poi.tags "start_date")).getD ""
  if opening = "" then none else
  match fromisoformatNaive opening with
  | none => none
  | some dt =>
    let name := (getTag poi.tags "name").getD "Unknown"
    some {
      osm_id := poi.id
      name := name
      industry := classifyIndustry poi.tags
      address := assembleAddress poi.tags
      phone := phone
      email_social := emailOrSocial poi.tags
      newness_days := Int.fdiv (now - dt) usPerDay
      income_tier := "Unknown"
      demo_link := "https://yourdomain.com/demo/" ++ slugify name
      lead_score := 0 }

/-- `str.zfill(5)` as pandas `Series.str.zfill` applies it (line 80): pad on
the left with `0` to width 5, no special sign handling. -/
def zfill5 (s : String) : String :=
  if 5 ≤ s.length then s else String.mk (List.replicate (5 - s.length) '0' ++ s.toList)

/-- `load_income_data` (lines 78-81): zero-pad every zip to width 5. -/
def loadIncomeData (raw : List IncRow) : List IncRow :=
  raw.map (fun r => { r with zip := zfill5 r.zip })

/-- Income-tier resolution (lines 186-192): first table row whose zip equals
the looked-up string, thresholds 80000/60000, `Unknown` when absent. -/
def lookupIncomeTier (income : List IncRow) (z : String) : String :=
  match income.find? (fun r => r.zip == z) with
  | some r =>
    if 80000 ≤ r.median_income then "High"
    else if 60000 ≤ r.median_income then "Medium"
    else "Low"
  | none => "Unknown"

/-- One iteration of the per-element loop (lines 169-221): extraction,
called-id exclusion (line 183), income-tier resolution, score attachment. -/
def processPOI (now : Int) (income : List IncRow) (calledIds : List String)
    (poi : RawPOI) : Option LeadRow :=
  match extract now poi with
  | none => none
  | some base =>
    if poi.id ∈ calledIds then none
    else
      let tier := lookupIncomeTier income ((getTag poi.tags "addr:postcode").getD "")
      let row := { base with income_tier := tier }
      some { row with lead_score := compute_lead_score row }

/-- The list `leads` accumulated by the loop, in input order. -/
def processAll (now : Int) (incomeRaw : List IncRow) (calledIds : List String)
    (pois : List RawPOI) : List LeadRow :=
  pois.filterMap (processPOI now (loadIncomeData incomeRaw) calledIds)

/-- Comparison pandas uses when argsorting the `lead_score` column. -/
def leadLE (a b : LeadRow) : Prop :=
  a.lead_score ≤ b.lead_score

instance decLeadLE : DecidableRel leadLE :=
  fun a b => decidable_of_iff (a.lead_score ≤ b.lead_score) Iff.rfl

/-- `df.sort_values('lead_score', ascending=False)` (line 233): pandas
`nargsort` reverses the values, argsorts them ascending with numpy's
default introsort (`kind='quicksort'`), and reverses the resulting
indexer. The underlying argsort is modelled by a stable insertion sort,
which coincides with numpy only below its 16-element insertion-sort
threshold; above it numpy's tie order is unspecified and unstable, so the
development relies on this model only through facts invariant under tie
order: membership and being a permutation of the input. -/
def sortValuesScoreDesc (rows : List LeadRow) : List LeadRow :=
  (List.insertionSort leadLE rows.reverse).reverse

/-- The displayed lead list: loop output sorted descending by score and
truncated by `.head(50)` (line 233). -/
def runPipeline (now : Int) (incomeRaw : List IncRow) (calledIds : List String)
    (pois : List RawPOI) : List LeadRow :=
  (sortValuesScoreDesc (processAll now incomeRaw calledIds pois)).take 50

/-- Does the lead store already hold a row for this key? (`osm_id` is the
PRIMARY KEY of the `leads` table, line 43.) -/
def hasLead (store : List (String × LeadRow)) (osmId : String) : Bool :=
  store.any (fun e => e.1 == osmId)

/-- `save_lead` (lines 54-60): `INSERT OR IGNORE` keyed by `osm_id`. -/
def saveLead (store : List (String × LeadRow)) (osmId : String) (row : LeadRow) :
    List (String × LeadRow) :=
  if hasLead store osmId then store else store ++ [(osmId, row)]

/-- The lead-store side of the loop: every produced lead is saved once,
in input order (line 222), keyed by the stringified element id. -/
def runPipelineStore (now : Int) (incomeRaw : List IncRow) (calledIds : List String) :
    List (String × LeadRow) → List RawPOI → List (String × LeadRow)
  | store, [] => store
  | store, poi :: rest =>
    match processPOI now (loadIncomeData incomeRaw) calledIds poi with
    | some row => runPipelineStore now incomeRaw calledIds (saveLead store poi.id row) rest
    | none => runPipelineStore now incomeRaw calledIds store rest

/-- Identifiers of the POIs for which the loop produces a lead, in input
order. -/
def producedIds (now : Int) (incomeRaw : List IncRow) (calledIds : List String)
    (pois : List RawPOI) : List String :=
  pois.filterMap (fun p => (processPOI now (loadIncomeData incomeRaw) calledIds p).map (fun _ => p.id))

/-- The date string claim C2 designates: the value of `opening_date` when
that key is present, else the value of `start_date` (presence-based choice,
as the claim words it). -/
def chosenDateC2 (poi : RawPOI) : String :=
  match getTag poi.tags "opening_date" with
  | some v => v
  | none => (getTag poi.tags "start_date").getD ""

/-- Claim C2's rejection condition exactly as stated: a `website` tag is
present, or neither phone tag is present, or neither date tag is present,
or the chosen date tag fails to parse as an ISO-8601 calendar date. -/
def rejectsPerC2 (poi : RawPOI) : Prop :=
  (getTag poi.tags "website").isSome
  ∨ (getTag poi.tags "phone" = none ∧ getTag poi.tags "contact:phone" = none)
  ∨ (getTag poi.tags "opening_date" = none ∧ getTag poi.tags "start_date" = none)
  ∨ parseIsoCalendarDate (chosenDateC2 poi) = none

/-- An all-default lead record; concrete witnesses below update its fields. -/
def baseRow : LeadRow :=
  { osm_id := "", name := "", industry := "", address := "", phone := "",
    email_social := "", newness_days := 0, income_tier := "", demo_link := "",
    lead_score := 0 }

/-- A minimal POI that the pipeline accepts. -/
def poiA : RawPOI :=
  { id := "n1", tags := [("phone", "5"), ("opening_date", "2024-01-02")] }

/-- Microseconds since the epoch of 2024-01-02 00:00. -/
def dtA : Int :=
  (fromisoformatNaive "2024-01-02").getD 0

/-- A current instant five days after the opening date of `poiA`. -/
def nowA : Int :=
  dtA + 5 * usPerDay

/-- The lead the pipeline produces from `poiA` at `nowA`. -/
def rowA : LeadRow :=
  { osm_id := "n1", name := "Unknown", industry := "Other", address := "",
    phone := "5", email_social := "", newness_days := 5, income_tier := "Unknown",
    demo_link := "https://yourdomain.com/demo/unknown", lead_score := 35 }

/-- A POI with full contact data and a High-income ZIP whose opening date
lies one day in the future. -/
def poiB : RawPOI :=
  { id := "n2", tags := [("phone", "555"), ("email", "x"),
                         ("opening_date", "2024-01-02"), ("addr:postcode", "10001")] }

/-- Income table putting ZIP 10001 in the High tier. -/
def incB : List IncRow :=
  [{ zip := "10001", median_income := 85000 }]

/-- The instant 2024-01-01 00:00, one day before the opening date of
`poiB`. -/
def nowB : Int :=
  (fromisoformatNaive "2024-01-01").getD 0

/-- The lead the pipeline produces from `poiB` at `nowB`: its newness is
negative and its score exceeds 55. -/
def rowB : LeadRow :=
  { osm_id := "n2", name := "Unknown", industry := "Other", address := "",
    phone := "555", email_social := "x", newness_days := -1, income_tier := "High",
    demo_link := "https://yourdomain.com/demo/unknown", lead_score := 56 }

/-- The lead the pipeline produces from `poiB` when run on the opening date
itself: a zero-day-old listing with full contact and High income. -/
def rowC : LeadRow :=
  { osm_id := "n2", name := "Unknown", industry := "Other", address := "",
    phone := "555", email_social := "x", newness_days := 0, income_tier := "High",
    demo_link := "https://yourdomain.com/demo/unknown", lead_score := 55 }

/-- A POI identical to `poiA` except for its identifier, used as an
already-called entry. -/
def poiD : RawPOI :=
  { id := "c1", tags := [("phone", "5"), ("opening_date", "2024-01-02")] }

theorem perm_sortValues (rows : List LeadRow) : List.Perm (sortValuesScoreDesc rows) rows := by
  unfold sortValuesScoreDesc
  exact ((List.insertionSort leadLE rows.reverse).reverse_perm.trans
    (List.perm_insertionSort leadLE rows.reverse)).trans rows.reverse_perm

theorem mem_runPipeline {row : LeadRow} {now : Int} {incomeRaw : List IncRow}
    {calledIds : List String} {pois : List RawPOI}
    (h : row ∈ runPipeline now incomeRaw calledIds pois) :
    ∃ p ∈ pois, processPOI now (loadIncomeData incomeRaw) calledIds p = some row := by
  unfold runPipeline at h
  have h2 : row ∈ sortValuesScoreDesc (processAll now incomeRaw calledIds pois) :=
    List.take_subset 50 _ h
  have h3 : row ∈ processAll now incomeRaw calledIds pois :=
    (perm_sortValues _).mem_iff.mp h2
  unfold processAll at h3
  obtain ⟨p, hp, hsome⟩ := List.mem_filterMap.mp h3
  exact ⟨p, hp, hsome⟩

theorem extract_inv {now : Int} {poi : RawPOI} {base : LeadRow}
    (h : extract now poi = some base) :
    base.osm_id = poi.id ∧ base.phone ≠ "" := by
  simp only [extract] at h
  split at h
  · exact absurd h (by simp)
  · split at h
    · exact absurd h (by simp)
    · split at h
      · exact absurd h (by simp)
      · split at h
        · exact absurd h (by simp)
        · rw [Option.some.injEq] at h
          subst h
          refine ⟨rfl, ?_⟩
          simpa using by assumption

theorem processPOI_inv {now : Int} {income : List IncRow} {calledIds : List String}
    {poi : RawPOI} {row : LeadRow}
    (h : processPOI now income calledIds poi = some row) :
    row.osm_id = poi.id ∧ poi.id ∉ calledIds ∧ row.phone ≠ "" ∧
      row.lead_score
        = max 0 (30 - row.newness_days)
          + (if row.phone = "" then 0 else 10)
          + (if row.email_social = "" then 0 else 5)
          + (if row.income_tier = "High" then 10
             else if row.income_tier = "Medium" then 5 else 0) := by
  cases hext : extract now poi with
  | none =>
    simp only [processPOI, hext] at h
    exact Option.noConfusion h
  | some base =>
    simp only [processPOI, hext] at h
    obtain ⟨hid, hphone⟩ := extract_inv hext
    by_cases hc : poi.id ∈ calledIds
    · rw [if_pos hc] at h
      exact absurd h (by simp)
    · rw [if_neg hc] at h
      simp only [Option.some.injEq] at h
      subst h
      refine ⟨hid, hc, by simpa using hphone, ?_⟩
      simp [compute_lead_score]

theorem hasLead_iff {st : List (String × LeadRow)} {i : String} :
    hasLead st i = true ↔ i ∈ st.map Prod.fst := by
  simp [hasLead, List.any_eq_true, List.mem_map]

theorem mem_keys_saveLead {st : List (String × LeadRow)} {osmId i : String} {row : LeadRow} :
    i ∈ (saveLead st osmId row).map Prod.fst ↔ i ∈ st.map Prod.fst ∨ i = osmId := by
  unfold saveLead
  split_ifs with h
  · have hk : osmId ∈ st.map Prod.fst := hasLead_iff.mp h
    constructor
    · exact Or.inl
    · rintro (hi | rfl)
      · exact hi
      · exact hk
  · simp [List.map_append]

theorem nodup_keys_saveLead {st : List (String × LeadRow)} {osmId : String} {row : LeadRow}
    (h : (st.map Prod.fst).Nodup) : ((saveLead st osmId row).map Prod.fst).Nodup := by
  unfold saveLead
  split_ifs with hk
  · exact h
  · have hnot : osmId ∉ st.map Prod.fst := fun hc => hk (hasLead_iff.mpr hc)
    rw [List.map_append]
    simp [List.nodup_append, h, hnot]

theorem mem_keys_runStore (now : Int) (incomeRaw : List IncRow) (calledIds : List String) :
    ∀ (pois : List RawPOI) (st : List (String × LeadRow)) (i : String),
      i ∈ (runPipelineStore now incomeRaw calledIds st pois).map Prod.fst
        ↔ i ∈ st.map Prod.fst ∨ i ∈ producedIds now incomeRaw calledIds pois
  | [], st, i => by simp [runPipelineStore, producedIds]
  | poi :: rest, st, i => by
    cases hp : processPOI now (loadIncomeData incomeRaw) calledIds poi with
    | some row =>
      have ih := mem_keys_runStore now incomeRaw calledIds rest (saveLead st poi.id row) i
      simp only [runPipelineStore, hp, producedIds, List.filterMap_cons, Option.map_some'] at ih ⊢
      rw [ih, mem_keys_saveLead]
      simp only [List.mem_cons]
      tauto
    | none =>
      have ih := mem_keys_runStore now incomeRaw calledIds rest st i
      simp only [runPipelineStore, hp, producedIds, List.filterMap_cons, Option.map_none'] at ih ⊢
      exact ih

theorem nodup_keys_runStore (now : Int) (incomeRaw : List IncRow) (calledIds : List String) :
    ∀ (pois : List RawPOI) (st : List (String × LeadRow)),
      (st.map Prod.fst).Nodup →
      ((runPipelineStore now incomeRaw calledIds st pois).map Prod.fst).Nodup
  | [], st, h => by simpa [runPipelineStore] using h
  | poi :: rest, st, h => by
    cases hp : processPOI now (loadIncomeData incomeRaw) calledIds poi with
    | some row =>
      simp only [runPipelineStore, hp]
      exact nodup_keys_runStore now incomeRaw calledIds rest _ (nodup_keys_saveLead h)
    | none =>
      simp only [runPipelineStore, hp]
      exact nodup_keys_runStore now incomeRaw calledIds rest st h

theorem runStore_stable (now : Int) (incomeRaw : List IncRow) (calledIds : List String) :
    ∀ (pois : List RawPOI) (st : List (String × LeadRow)),
      (∀ i ∈ producedIds now incomeRaw calledIds pois, i ∈ st.map Prod.fst) →
      runPipelineStore now incomeRaw calledIds st pois = st
  | [], st, _ => by simp [runPipelineStore]
  | poi :: rest, st, h => by
    cases hp : processPOI now (loadIncomeData incomeRaw) calledIds poi with
    | some row =>
      have hid : poi.id ∈ st.map Prod.fst := by
        refine h poi.id ?_
        simp [producedIds, List.filterMap_cons, hp]
      have hsave : saveLead st poi.id row = st := by
        unfold saveLead
        rw [if_pos (hasLead_iff.mpr hid)]
      simp only [runPipelineStore, hp, hsave]
      refine runStore_stable now incomeRaw calledIds rest st (fun i hi => h i ?_)
      simp only [producedIds, List.filterMap_cons, Option.map_some'] at hi ⊢
      simp [hp]
      right
      simpa [producedIds] using hi
    | none =>
      simp only [runPipelineStore, hp]
      refine runStore_stable now incomeRaw calledIds rest st (fun i hi => h i ?_)
      simp only [producedIds, List.filterMap_cons, Option.map_none'] at hi ⊢
      simp [hp]
      simpa [producedIds] using hi

theorem processAll_ids_sublist (now : Int) (incomeRaw : List IncRow) (calledIds : List String) :
    ∀ pois : List RawPOI,
      List.Sublist ((processAll now incomeRaw calledIds pois).map (fun r => r.osm_id))
        (pois.map (fun p => p.id))
  | [] => by simp [processAll]
  | poi :: rest => by
    have ih := processAll_ids_sublist now incomeRaw calledIds rest
    cases hp : processPOI now (loadIncomeData incomeRaw) calledIds poi with
    | some row =>
      obtain ⟨hid, -, -, -⟩ := processPOI_inv hp
      simp only [processAll, List.filterMap_cons, hp, List.map_cons] at ih ⊢
      rw [hid]
      exact ih.cons₂ poi.id
    | none =>
      simp only [processAll, List.filterMap_cons, hp, List.map_cons] at ih ⊢
      exact ih.cons poi.id

/-- C1: every lead in the pipeline output carries a lead score equal to
`max(0, 30 - newness_days)`, plus 10 when its phone is non-empty, plus 5
when its email/social is non-empty, plus 10 when its income tier is High,
plus 5 when it is Medium and plus 0 otherwise. -/
theorem claimC1_score_formula (now : Int) (incomeRaw : List IncRow)
    (calledIds : List String) (pois : List RawPOI) (row : LeadRow)
    (h : row ∈ runPipeline now incomeRaw calledIds pois) :
    row.lead_score = max 0 (30 - row.newness_days)
      + (if row.phone ≠ "" then 10 else 0)
      + (if row.email_social ≠ "" then 5 else 0)
      + (if row.income_tier = "High" then 10
         else if row.income_tier = "Medium" then 5 else 0) := by
  obtain ⟨p, hp, hproc⟩ := mem_runPipeline h
  obtain ⟨-, -, -, hs⟩ := processPOI_inv hproc
  rw [hs]
  by_cases h1 : row.phone = "" <;> by_cases h2 : row.email_social = "" <;> simp [h1, h2]

theorem claimC1_witness :
    rowA.lead_score = max 0 (30 - rowA.newness_days)
      + (if rowA.phone ≠ "" then 10 else 0)
      + (if rowA.email_social ≠ "" then 5 else 0)
      + (if rowA.income_tier = "High" then 10
         else if rowA.income_tier = "Medium" then 5 else 0) :=
  claimC1_score_formula nowA [] [] [poiA] rowA (by decide)

/-- C2 counterexamples, refuting the claimed equivalence in both
directions: a POI whose `phone` tag is present but empty is rejected by
the code although none of the claim's presence-based conditions holds, and
a POI whose `opening_date` carries a time part (`2024-01-05T10:00:00`,
accepted by `datetime.fromisoformat`) is turned into a lead by the code
although the claim's calendar-date condition (4) holds. -/
theorem claimC2_counterexample :
    (extract 20000 { id := "n1", tags := [("phone", ""), ("opening_date", "2024-01-05")] } = none
     ∧ ¬ rejectsPerC2 { id := "n1", tags := [("phone", ""), ("opening_date", "2024-01-05")] })
    ∧ ((extract 20000
          { id := "n3", tags := [("phone", "5"), ("opening_date", "2024-01-05T10:00:00")] }).isSome
       ∧ rejectsPerC2
          { id := "n3", tags := [("phone", "5"), ("opening_date", "2024-01-05T10:00:00")] }) := by
  refine ⟨⟨rfl, ?_⟩, by decide, ?_⟩
  · unfold rejectsPerC2 chosenDateC2
    decide
  · unfold rejectsPerC2 chosenDateC2
    decide

/-- C2 amended: extraction rejects a POI iff a `website` tag is present, or
the phone falsy-chain (first non-empty of `phone`, `contact:phone`) is
empty, or the date falsy-chain (first non-empty of `opening_date`,
`start_date`) is empty, or `datetime.fromisoformat` does not turn the
chosen date string into an offset-naive datetime (unparseable strings and
offset-aware results alike, both raising into the same handler); otherwise
a normalized lead is produced. -/
theorem claimC2_amended_reject_iff (now : Int) (poi : RawPOI) :
    extract now poi = none ↔
      ((getTag poi.tags "website").isSome
       ∨ (orT (getTag poi.tags "phone") (getTag poi.tags "contact:phone")).getD "" = ""
       ∨ (orT (getTag poi.tags "opening_date") (getTag poi.tags "start_date")).getD "" = ""
       ∨ fromisoformatNaive
           ((orT (getTag poi.tags "opening_date") (getTag poi.tags "start_date")).getD "")
           = none) := by
  simp only [extract]
  split_ifs with h1 h2 h3
  · simp [h1]
  · simp [h1, h2]
  · simp [h1, h2, h3]
  · cases hp : fromisoformatNaive
        ((orT (getTag poi.tags "opening_date") (getTag poi.tags "start_date")).getD "") with
    | none => simp [h1, h2, h3, hp]
    | some d => simp [h1, h2, h3, hp]

/-- C4: every produced lead's income tier is the exact first-match lookup
of the POI's postal-code tag in the loaded table with thresholds 80000 and
60000 and fallback Unknown; loading zero-pads each zip, and a zip of at
most 5 characters is padded to exactly 5. -/
theorem claimC4_income_tier :
    (∀ (now : Int) (incomeRaw : List IncRow) (calledIds : List String)
        (poi : RawPOI) (row : LeadRow),
        processPOI now (loadIncomeData incomeRaw) calledIds poi = some row →
        row.income_tier =
          match (loadIncomeData incomeRaw).find?
              (fun r => r.zip == (getTag poi.tags "addr:postcode").getD "") with
          | some r =>
            if 80000 ≤ r.median_income then "High"
            else if 60000 ≤ r.median_income then "Medium"
            else "Low"
          | none => "Unknown")
    ∧ (∀ raw : List IncRow,
        (loadIncomeData raw).map (fun r => r.zip) = raw.map (fun r => zfill5 r.zip))
    ∧ (∀ s : String, (zfill5 s).length = max 5 s.length) := by
  refine ⟨?_, ?_, ?_⟩
  · intro now incomeRaw calledIds poi row h
    cases hext : extract now poi with
    | none =>
      simp only [processPOI, hext] at h
      exact Option.noConfusion h
    | some base =>
      simp only [processPOI, hext] at h
      by_cases hc : poi.id ∈ calledIds
      · rw [if_pos hc] at h
        exact absurd h (by simp)
      · rw [if_neg hc] at h
        simp only [Option.some.injEq] at h
        subst h
        simp [lookupIncomeTier]
  · intro raw
    simp [loadIncomeData]
  · intro s
    unfold zfill5
    split_ifs with h
    · rw [Nat.max_eq_right h]
    · show (List.replicate (5 - s.length) '0' ++ s.toList).length = max 5 s.length
      rw [List.length_append, List.length_replicate]
      have hts : s.toList.length = s.length := rfl
      rw [hts]
      omega

theorem claimC4_witness : rowB.income_tier = "High" := by
  have h := claimC4_income_tier.1 nowB incB [] poiB rowB (by decide)
  exact h.trans (by decide)

/-- C5 counterexample: with an opening date one day in the future the
pipeline produces a lead whose newness is -1 and whose score is 56, so
pipeline scores are not bounded by 55. -/
theorem claimC5_counterexample :
    rowB ∈ runPipeline nowB incB [] [poiB] ∧ 55 < rowB.lead_score := by
  constructor
  · decide
  · decide

/-- C5 amended: every pipeline lead whose opening date does not lie in the
future (newness at least 0) scores at most 55, and 55 is attained by a
zero-day-old listing with phone and email present and High income tier. -/
theorem claimC5_amended_max55 :
    (∀ (now : Int) (incomeRaw : List IncRow) (calledIds : List String)
        (pois : List RawPOI) (row : LeadRow),
        row ∈ runPipeline now incomeRaw calledIds pois →
        0 ≤ row.newness_days → row.lead_score ≤ 55)
    ∧ rowC ∈ runPipeline dtA incB [] [poiB] ∧ rowC.lead_score = 55 := by
  refine ⟨?_, by decide, by decide⟩
  intro now incomeRaw calledIds pois row h hn
  obtain ⟨p, hp, hproc⟩ := mem_runPipeline h
  obtain ⟨-, -, -, hs⟩ := processPOI_inv hproc
  rw [hs]
  split_ifs <;> omega

theorem claimC5_witness : rowC.lead_score ≤ 55 :=
  claimC5_amended_max55.1 dtA incB [] [poiB] rowC (by decide) (by decide)

/-- C6: when the batch's identifiers are pairwise distinct (the data
model's source-uniqueness of `RawPOI` identifiers), no two leads in the
pipeline output share an identifier. -/
theorem claimC6_unique_ids (now : Int) (incomeRaw : List IncRow)
    (calledIds : List String) (pois : List RawPOI)
    (h : (pois.map (fun p => p.id)).Nodup) :
    ((runPipeline now incomeRaw calledIds pois).map (fun r => r.osm_id)).Nodup := by
  have h1 : ((processAll now incomeRaw calledIds pois).map (fun r => r.osm_id)).Nodup :=
    h.sublist (processAll_ids_sublist now incomeRaw calledIds pois)
  have h2 : ((sortValuesScoreDesc (processAll now incomeRaw calledIds pois)).map
      (fun r => r.osm_id)).Nodup :=
    (((perm_sortValues (processAll now incomeRaw calledIds pois)).map
      (fun r => r.osm_id)).nodup_iff).mpr h1
  unfold runPipeline
  rw [List.map_take]
  exact h2.sublist (List.take_sublist 50 _)

theorem claimC6_witness :
    ((runPipeline nowA [] [] [poiA, poiB]).map (fun r => r.osm_id)).Nodup :=
  claimC6_unique_ids nowA [] [] [poiA, poiB] (by decide)

/-- C7: when the called-id exclusion applies, a POI whose identifier is in
`called_ids` contributes nothing: no lead in the pipeline output carries
its identifier, whatever its score would have been. -/
theorem claimC7_called_excluded (now : Int) (incomeRaw : List IncRow)
    (calledIds : List String) (pois : List RawPOI) (p : RawPOI)
    (_hp : p ∈ pois) (hc : p.id ∈ calledIds) (row : LeadRow)
    (hrow : row ∈ runPipeline now incomeRaw calledIds pois) :
    row.osm_id ≠ p.id := by
  obtain ⟨q, hq, hproc⟩ := mem_runPipeline hrow
  obtain ⟨hid, hnc, -, -⟩ := processPOI_inv hproc
  intro hEq
  rw [hid] at hEq
  exact hnc (by rw [hEq]; exact hc)

theorem claimC7_witness : rowA.osm_id ≠ poiD.id :=
  claimC7_called_excluded nowA [] ["c1"] [poiA, poiD] poiD (by decide) (by decide)
    rowA (by decide)

/-- C8: holding the other fields fixed, the score is non-increasing in
`newness_days`, and it is exactly 0 once `newness_days` is at least 30 and
every bonus condition (non-empty phone, non-empty email/social, High or
Medium income tier) is false. -/
theorem claimC8_monotone_floor :
    (∀ (r : LeadRow) (d d2 : Int), d ≤ d2 →
        compute_lead_score { r with newness_days := d2 }
          ≤ compute_lead_score { r with newness_days := d })
    ∧ (∀ r : LeadRow, 30 ≤ r.newness_days → r.phone = "" → r.email_social = "" →
        r.income_tier ≠ "High" → r.income_tier ≠ "Medium" →
        compute_lead_score r = 0) := by
  constructor
  · intro r d d2 hd
    simp only [compute_lead_score]
    split_ifs <;> omega
  · intro r h30 hph he h1 h2
    simp only [compute_lead_score, hph, he, if_pos, h1, h2]
    simp
    omega

theorem claimC8_witness :
    compute_lead_score { baseRow with newness_days := 9 }
      ≤ compute_lead_score { baseRow with newness_days := 4 }
    ∧ compute_lead_score { baseRow with newness_days := 31, income_tier := "Low" } = 0 :=
  ⟨claimC8_monotone_floor.1 baseRow 4 9 (by decide),
   claimC8_monotone_floor.2 { baseRow with newness_days := 31, income_tier := "Low" }
     (by decide) rfl rfl (by decide) (by decide)⟩

/-- C9: over any batch and an empty call history, a second pipeline run is
a no-op on the lead store: the store after one run has pairwise distinct
keys, its keys are exactly the produced identifiers, and running again
neither duplicates nor overwrites an entry. -/
theorem claimC9_idempotent_store (now : Int) (incomeRaw : List IncRow) (pois : List RawPOI) :
    runPipelineStore now incomeRaw [] (runPipelineStore now incomeRaw [] [] pois) pois
      = runPipelineStore now incomeRaw [] [] pois
    ∧ ((runPipelineStore now incomeRaw [] [] pois).map Prod.fst).Nodup
    ∧ (∀ i : String,
        i ∈ (runPipelineStore now incomeRaw [] [] pois).map Prod.fst
          ↔ i ∈ producedIds now incomeRaw [] pois) := by
  have hmem : ∀ i : String,
      i ∈ (runPipelineStore now incomeRaw [] [] pois).map Prod.fst
        ↔ i ∈ producedIds now incomeRaw [] pois := by
    intro i
    rw [mem_keys_runStore]
    simp
  refine ⟨?_, ?_, hmem⟩
  · exact runStore_stable now incomeRaw [] pois _ (fun i hi => (hmem i).mpr hi)
  · exact nodup_keys_runStore now incomeRaw [] pois [] (by simp)

/-- C10: every lead that passes extraction scores at least 10: extraction
guarantees a non-empty phone, worth 10, and no other score term is
negative. -/
theorem claimC10_min_score (now : Int) (incomeRaw : List IncRow)
    (calledIds : List String) (pois : List RawPOI) (row : LeadRow)
    (h : row ∈ processAll now incomeRaw calledIds pois) :
    10 ≤ row.lead_score := by
  unfold processAll at h
  obtain ⟨p, -, hproc⟩ := List.mem_filterMap.mp h
  obtain ⟨-, -, hphone, hs⟩ := processPOI_inv hproc
  rw [hs, if_neg hphone]
  split_ifs <;> omega

theorem claimC10_witness : 10 ≤ rowA.lead_score :=
  claimC10_min_score nowA [] [] [poiA] rowA (by decide)
